import Mathlib

/-!
Shallow embedding of the conversation session lifecycle and message
synchronization logic of `src/frontend/app/page.tsx` (the `Home` React
component of the chat client), together with theorems settling the
specification claims about it.

The embedding models:
* the JavaScript number produced by `parseInt(s, 10)` (`JsNum`, with a
  distinguished `nan`),
* the message record type and the Message Log (`Message`, `List Message`),
* the identity-resolution effect (lines 20-41) as `resolveIdentity`,
* the history-load effect (lines 43-61) as `historyEffect`,
* the WebSocket effect with its React cleanup semantics (lines 63-93) as a
  step function `wsStep` over `WsState` emitting open/close actions,
* the inbound-frame handler `ws.onmessage` (lines 75-79) as `onmessage`,
* the outbound dispatcher `sendMessage` (lines 95-107) as `sendMessage`.
-/

/-- A JavaScript number restricted to what this program produces: either an
integer or `NaN` (the result of `parseInt` on a non-numeric string). -/
inductive JsNum where
  | nan : JsNum
  | num (n : Int) : JsNum
deriving DecidableEq, Repr

/-- The `sender` field of a `Message` in `page.tsx`: `"user" | "bot"`. -/
inductive Sender where
  | user : Sender
  | bot : Sender
deriving DecidableEq, Repr

/-- The `Message` type of `page.tsx`: `{ id?: number; sender; content }`.
`id` is optional (absent for locally originated or live-streamed messages). -/
structure Message where
  id : Option Int
  sender : Sender
  content : String
deriving DecidableEq, Repr

/-- ASCII whitespace recognized by JavaScript for `trim` / `parseInt`
(space, tab, newline, carriage return, vertical tab, form feed). -/
def jsWhitespace (c : Char) : Bool :=
  c = ' ' || c = '\t' || c = '\n' || c = '\r' || c = '\x0b' || c = '\x0c'

/-- `String.prototype.trim`: removes leading and trailing whitespace. -/
def jsTrim (s : String) : String :=
  String.mk (((s.data.dropWhile jsWhitespace).reverse.dropWhile jsWhitespace).reverse)

/-- Value of a list of decimal digit characters. -/
def digitsToNat (ds : List Char) : Nat :=
  ds.foldl (fun a c => a * 10 + (c.toNat - 48)) 0

/-- Parse the leading decimal digits of `cs` with the given sign; `nan` when
there is no leading digit (JavaScript `parseInt` semantics). -/
def parseDigits (cs : List Char) (sign : Int) : JsNum :=
  let ds := cs.takeWhile Char.isDigit
  if ds.isEmpty then JsNum.nan else JsNum.num (sign * (digitsToNat ds : Int))

/-- `parseInt(s, 10)`: skip leading whitespace, accept an optional sign, then
take the longest prefix of decimal digits; `NaN` when no digit is found. -/
def parseInt10 (s : String) : JsNum :=
  match s.data.dropWhile jsWhitespace with
  | '-' :: rest => parseDigits rest (-1)
  | '+' :: rest => parseDigits rest 1
  | cs => parseDigits cs 1

/-- String interpolation `${conversationId}` for a JavaScript number. -/
def jsNumToString (v : JsNum) : String :=
  match v with
  | JsNum.nan => "NaN"
  | JsNum.num n => toString n

/-- JavaScript truthiness of `localStorage.getItem(...)`: `null` and the
empty string are falsy, every other string is truthy (line 22). -/
def strTruthy (o : Option String) : Bool :=
  match o with
  | none => false
  | some s => s ≠ ""

/-- Observable actions of the identity-resolution effect (lines 20-41). -/
inductive RAct where
  | createRequest : RAct
  | storageWrite (v : String) : RAct
  | expose (v : JsNum) : RAct
  | logCreateError : RAct
deriving DecidableEq, Repr

/-- Outcome of the identity-resolution effect: its ordered action trace, the
storage contents afterwards, and the exposed `conversationId` state. -/
structure ResolveOut where
  acts : List RAct
  storage : Option String
  convId : Option JsNum
deriving DecidableEq, Repr

/-- The identity-resolution effect of `Home` (lines 20-41): read the cached
`conversationId`; when truthy, expose `parseInt(storedId, 10)` without any
remote call; otherwise issue one `POST /conversations/new`, and on success
write the returned id to storage and then expose it (on failure, log). -/
def resolveIdentity (stored : Option String) (svc : Except Unit Int) : ResolveOut :=
  if strTruthy stored then
    let v := parseInt10 (stored.getD "")
    ⟨[RAct.expose v], stored, some v⟩
  else
    match svc with
    | Except.ok n =>
        ⟨[RAct.createRequest, RAct.storageWrite (toString n), RAct.expose (JsNum.num n)],
          some (toString n), some (JsNum.num n)⟩
    | Except.error _ => ⟨[RAct.createRequest, RAct.logCreateError], stored, none⟩

/-- URL of the history fetch (line 47):
`${baseUrl}/conversations/${conversationId}/messages`. -/
def historyUrl (base : String) (cid : JsNum) : String :=
  base ++ "/conversations/" ++ jsNumToString cid ++ "/messages"

/-- `baseUrl.replace(/^http/, "ws")` (line 66): when the address starts with
`http`, that prefix is replaced by `ws`; otherwise it is unchanged. -/
def replaceHttpWs (base : String) : String :=
  match base.data with
  | 'h' :: 't' :: 't' :: 'p' :: rest => String.mk ('w' :: 's' :: rest)
  | _ => base

/-- URL of the streaming connection (line 66):
scheme swapped plus `/ws/chat?conversation_id=${conversationId}`. -/
def wsUrl (base : String) (cid : JsNum) : String :=
  replaceHttpWs base ++ "/ws/chat?conversation_id=" ++ jsNumToString cid

/-- The history request issued by the history-load effect (lines 43-47):
no request while `conversationId == null`, otherwise the fetch URL. -/
def historyRequest (base : String) (cid : Option JsNum) : Option String :=
  match cid with
  | none => none
  | some c => some (historyUrl base c)

/-- The connection target of the WebSocket effect (lines 63-68):
no connection while `conversationId == null`, otherwise the socket URL. -/
def connTarget (base : String) (cid : Option JsNum) : Option String :=
  match cid with
  | none => none
  | some c => some (wsUrl base c)

/-- A record as returned by `GET /conversations/{id}/messages`
(each carries `id`, `sender`, `content`; lines 49-54). -/
structure ServerRecord where
  id : Int
  sender : String
  content : String
deriving DecidableEq, Repr

/-- The per-record mapping of the history load (lines 50-54): keep `id` and
`content`; `m.sender === "user" ? "user" : "bot"`. -/
def normalizeRecord (m : ServerRecord) : Message :=
  ⟨some m.id, if m.sender = "user" then Sender.user else Sender.bot, m.content⟩

/-- Observable actions of the history-load effect (lines 43-61). -/
inductive HistAction where
  | fetchReq (url : String) : HistAction
  | logFetchError : HistAction
deriving DecidableEq, Repr

/-- The history-load effect of `Home` (lines 43-61): nothing when
`conversationId == null`; otherwise a single fetch, whose success replaces
the Message Log with the mapped records (`setMessages(loaded)`) and whose
failure leaves the log untouched and logs the error. No retry exists. -/
def historyEffect (base : String) (cid : Option JsNum)
    (result : Except Unit (List ServerRecord)) (msgs : List Message) :
    List Message × List HistAction :=
  match cid with
  | none => (msgs, [])
  | some c =>
    match result with
    | Except.ok recs => (recs.map normalizeRecord, [HistAction.fetchReq (historyUrl base c)])
    | Except.error _ => (msgs, [HistAction.fetchReq (historyUrl base c), HistAction.logFetchError])

/-- `ws.onmessage` (lines 75-79): append a bot message whose content is the
raw frame payload, with no `id`. -/
def onmessage (data : String) (msgs : List Message) : List Message :=
  msgs ++ [⟨none, Sender.bot, data⟩]

/-- Deliver a sequence of inbound frames in arrival order, each through
`onmessage`. -/
def deliverFrames (frames : List String) (msgs : List Message) : List Message :=
  frames.foldl (fun acc f => onmessage f acc) msgs

/-- `WebSocket.CONNECTING`. -/
def wsCONNECTING : Nat := 0

/-- `WebSocket.OPEN`. -/
def wsOPEN : Nat := 1

/-- `WebSocket.CLOSING`. -/
def wsCLOSING : Nat := 2

/-- `WebSocket.CLOSED`. -/
def wsCLOSED : Nat := 3

/-- The guard of `sendMessage` (line 96):
`!socketRef.current || socketRef.current.readyState !== WebSocket.OPEN`. -/
def socketNotOpen (sock : Option Nat) : Bool :=
  match sock with
  | none => true
  | some rs => rs ≠ wsOPEN

/-- Outcome of one `sendMessage` call: the Message Log, the input buffer,
the frames transmitted over the socket, and whether the `alert`
(the NotConnected warning) fired. -/
structure DispatchResult where
  messages : List Message
  input : String
  sent : List String
  alerted : Bool
deriving DecidableEq, Repr

/-- `sendMessage` (lines 95-107): alert and change nothing unless the socket
exists and is OPEN; trim the input and do nothing when the result is empty;
otherwise append the user message, send the trimmed text as one frame, and
clear the input buffer. -/
def sendMessage (sock : Option Nat) (inp : String) (msgs : List Message) : DispatchResult :=
  if socketNotOpen sock then ⟨msgs, inp, [], true⟩
  else
    let text := jsTrim inp
    if text = "" then ⟨msgs, inp, [], false⟩
    else ⟨msgs ++ [⟨none, Sender.user, text⟩], "", [text], false⟩

/-- Observable open/close actions of the WebSocket effect (lines 63-93).
Each socket object created by `new WebSocket(wsUrl)` is identified by a
fresh token; `cid` records the identifier the connection is bound to. -/
inductive ConnAct where
  | openConn (tok : Nat) (cid : JsNum) : ConnAct
  | closeConn (tok : Nat) : ConnAct
deriving DecidableEq, Repr

/-- Events driving the WebSocket effect: a React re-render where the
`conversationId` dependency changed, unmounting of the view, and the
socket callbacks `onerror` / `onclose` (lines 81-87), which only log. -/
inductive WsEvent where
  | setId (cid : Option JsNum) : WsEvent
  | unmount : WsEvent
  | sockError : WsEvent
  | sockClose : WsEvent
deriving DecidableEq, Repr

/-- State of the WebSocket effect: the live socket installed by the last
effect run (if any) and a supply of fresh socket tokens. -/
structure WsState where
  conn : Option Nat
  fresh : Nat
deriving DecidableEq, Repr

/-- The cleanup function returned by the effect (lines 89-92): close the
socket created by the previous run, if one exists. -/
def closeActs (s : WsState) : List ConnAct :=
  match s.conn with
  | some t => [ConnAct.closeConn t]
  | none => []

/-- One step of the WebSocket effect under React semantics: when the
`conversationId` dependency changes, the previous run's cleanup executes
first (closing any existing socket), then the effect body runs, opening a
new socket only when the identifier is non-null (lines 63-93). Unmounting
runs the cleanup alone. `onerror` and `onclose` only log: they neither
close nor reopen anything. -/
def wsStep (s : WsState) (e : WsEvent) : WsState × List ConnAct :=
  match e with
  | WsEvent.setId none => (⟨none, s.fresh⟩, closeActs s)
  | WsEvent.setId (some c) =>
      (⟨some s.fresh, s.fresh + 1⟩, closeActs s ++ [ConnAct.openConn s.fresh c])
  | WsEvent.unmount => (⟨none, s.fresh⟩, closeActs s)
  | WsEvent.sockError => (s, [])
  | WsEvent.sockClose => (s, [])

/-- Run the WebSocket effect over a sequence of events, collecting the
emitted action trace. -/
def wsRun (s : WsState) : List WsEvent → WsState × List ConnAct
  | [] => (s, [])
  | e :: es =>
      let p := wsStep s e
      let q := wsRun p.1 es
      (q.1, p.2 ++ q.2)

/-- Initial state of the WebSocket effect: no socket yet. -/
def wsInit : WsState := ⟨none, 0⟩

/-- Effect of one open/close action on the set of live connections. -/
def liveStep (live : List Nat) (a : ConnAct) : List Nat :=
  match a with
  | ConnAct.openConn t _ => live ++ [t]
  | ConnAct.closeConn t => live.filter (fun x => x ≠ t)

/-- Connections live after executing `acts` starting from `live`. -/
def liveFrom (live : List Nat) (acts : List ConnAct) : List Nat :=
  acts.foldl liveStep live

/-- Connections live after executing `acts` from the start of the session. -/
def liveAfter (acts : List ConnAct) : List Nat :=
  liveFrom [] acts

/-- Invariant tying the effect state to the set of live connections: the
live set is exactly the socket held by the state, and its token is in the
past of the fresh-token supply. -/
def WsInv (s : WsState) (live : List Nat) : Prop :=
  live = s.conn.toList ∧ ∀ t ∈ live, t < s.fresh

theorem wsInv_init : WsInv wsInit [] := by
  constructor
  · rfl
  · intro t ht
    simp at ht

theorem wsInv_length (s : WsState) (live : List Nat) (h : WsInv s live) :
    live.length ≤ 1 := by
  rw [h.1]
  cases s.conn <;> simp [Option.toList]

theorem wsStep_inv (s : WsState) (live : List Nat) (e : WsEvent) (h : WsInv s live) :
    WsInv (wsStep s e).1 (liveFrom live (wsStep s e).2) := by
  obtain ⟨h1, h2⟩ := h
  subst h1
  cases e with
  | setId cid =>
    cases cid with
    | none =>
      cases hc : s.conn <;>
        simp [wsStep, closeActs, hc, liveFrom, liveStep, WsInv, Option.toList]
    | some c =>
      cases hc : s.conn <;>
        simp [wsStep, closeActs, hc, liveFrom, liveStep, WsInv, Option.toList]
  | unmount =>
    cases hc : s.conn <;>
      simp [wsStep, closeActs, hc, liveFrom, liveStep, WsInv, Option.toList]
  | sockError =>
    refine ⟨by simp [wsStep, liveFrom], ?_⟩
    simpa [wsStep, liveFrom] using h2
  | sockClose =>
    refine ⟨by simp [wsStep, liveFrom], ?_⟩
    simpa [wsStep, liveFrom] using h2

theorem wsStep_live_bound (s : WsState) (live : List Nat) (e : WsEvent) (h : WsInv s live)
    (pre suf : List ConnAct) (hsplit : (wsStep s e).2 = pre ++ suf) :
    (liveFrom live pre).length ≤ 1 := by
  have hlen : live.length ≤ 1 := wsInv_length s live h
  obtain ⟨h1, _⟩ := h
  subst h1
  cases e with
  | setId cid =>
    cases cid with
    | none =>
      cases hc : s.conn with
      | none =>
        simp [wsStep, closeActs, hc] at hsplit
        obtain ⟨rfl, rfl⟩ := hsplit
        simpa [liveFrom] using hlen
      | some t =>
        simp [wsStep, closeActs, hc] at hsplit
        rcases pre with _ | ⟨a, pre'⟩
        · simpa [liveFrom] using hlen
        · simp [List.cons_eq_cons] at hsplit
          obtain ⟨rfl, hrest⟩ := hsplit
          obtain ⟨rfl, rfl⟩ := hrest
          calc (liveFrom [t] [ConnAct.closeConn t]).length
              ≤ [t].length := by simp [liveFrom, liveStep, List.length_filter_le]
            _ ≤ 1 := by simp
    | some c =>
      cases hc : s.conn with
      | none =>
        simp [wsStep, closeActs, hc] at hsplit
        rcases pre with _ | ⟨a, pre'⟩
        · simp [liveFrom]
        · simp [List.cons_eq_cons] at hsplit
          obtain ⟨rfl, hrest⟩ := hsplit
          obtain ⟨rfl, rfl⟩ := hrest
          simp [liveFrom, liveStep, Option.toList]
      | some t =>
        simp [wsStep, closeActs, hc] at hsplit
        rcases pre with _ | ⟨a, pre'⟩
        · simpa [liveFrom] using hlen
        · simp [List.cons_eq_cons] at hsplit
          obtain ⟨rfl, hrest⟩ := hsplit
          rcases pre' with _ | ⟨b, pre''⟩
          · simp [liveFrom, liveStep, List.length_filter_le, Option.toList]
          · simp [List.cons_eq_cons] at hrest
            obtain ⟨rfl, hrest2⟩ := hrest
            obtain ⟨rfl, rfl⟩ := hrest2
            simp [liveFrom, liveStep, Option.toList]
  | unmount =>
    cases hc : s.conn with
    | none =>
      simp [wsStep, closeActs, hc] at hsplit
      obtain ⟨rfl, rfl⟩ := hsplit
      simpa [liveFrom] using hlen
    | some t =>
      simp [wsStep, closeActs, hc] at hsplit
      rcases pre with _ | ⟨a, pre'⟩
      · simpa [liveFrom] using hlen
      · simp [List.cons_eq_cons] at hsplit
        obtain ⟨rfl, hrest⟩ := hsplit
        obtain ⟨rfl, rfl⟩ := hrest
        calc (liveFrom [t] [ConnAct.closeConn t]).length
            ≤ [t].length := by simp [liveFrom, liveStep, List.length_filter_le]
          _ ≤ 1 := by simp
  | sockError =>
    simp [wsStep] at hsplit
    obtain ⟨rfl, rfl⟩ := hsplit
    simpa [liveFrom] using hlen
  | sockClose =>
    simp [wsStep] at hsplit
    obtain ⟨rfl, rfl⟩ := hsplit
    simpa [liveFrom] using hlen

theorem wsRun_cons (s : WsState) (e : WsEvent) (es : List WsEvent) :
    (wsRun s (e :: es)).2 = (wsStep s e).2 ++ (wsRun (wsStep s e).1 es).2 := rfl

theorem wsRun_live_bound (es : List WsEvent) (s : WsState) (live : List Nat) (h : WsInv s live)
    (pre suf : List ConnAct) (hsplit : (wsRun s es).2 = pre ++ suf) :
    (liveFrom live pre).length ≤ 1 := by
  induction es generalizing s live pre suf with
  | nil =>
    have : ([] : List ConnAct) = pre ++ suf := hsplit
    obtain ⟨rfl, rfl⟩ := (List.append_eq_nil.mp this.symm)
    simpa [liveFrom] using wsInv_length s live h
  | cons e es ih =>
    rw [wsRun_cons] at hsplit
    rcases List.append_eq_append_iff.mp hsplit with ⟨a, ha1, ha2⟩ | ⟨c, hc1, hc2⟩
    · subst ha1
      rw [show liveFrom live ((wsStep s e).2 ++ a) =
            liveFrom (liveFrom live (wsStep s e).2) a from List.foldl_append _ _ _ _]
      exact ih (wsStep s e).1 (liveFrom live (wsStep s e).2)
        (wsStep_inv s live e h) a suf ha2
    · exact wsStep_live_bound s live e h pre c hc1

theorem closeActs_all_close (s : WsState) :
    ∀ a ∈ closeActs s, ∃ t, a = ConnAct.closeConn t := by
  intro a ha
  cases hc : s.conn with
  | none => simp [closeActs, hc] at ha
  | some t => exact ⟨t, by simpa [closeActs, hc] using ha⟩

theorem close_before_open_split (cl op : List ConnAct)
    (hcl : ∀ a ∈ cl, ∃ t, a = ConnAct.closeConn t)
    (hop : ∀ a ∈ op, ∃ tok c, a = ConnAct.openConn tok c)
    (i j t tok : Nat) (c : JsNum)
    (hi : (cl ++ op)[i]? = some (ConnAct.closeConn t))
    (hj : (cl ++ op)[j]? = some (ConnAct.openConn tok c)) : i < j := by
  by_contra hij
  push_neg at hij
  have hi_lt : i < cl.length := by
    by_contra hge
    push_neg at hge
    rw [List.getElem?_append_right hge] at hi
    obtain ⟨tok', c', habs⟩ := hop _ (List.getElem?_mem hi)
    exact absurd habs (by simp)
  have hj_lt : j < cl.length := lt_of_le_of_lt hij hi_lt
  rw [List.getElem?_append_left hj_lt] at hj
  obtain ⟨t', habs⟩ := hcl _ (List.getElem?_mem hj)
  exact absurd habs (by simp)

/-- C1: at session start, with no cached identifier, exactly one creation
request is issued; on success the returned identifier is written to storage
before it is exposed (the storage write precedes the expose in the action
trace), and that identifier is the one the history fetch and the streaming
connection use. With a cached identifier present, no creation request is
issued. -/
theorem c1_identity_resolution (base : String) (svc : Except Unit Int) (n : Int) (s : String)
    (hok : svc = Except.ok n) (hs : s ≠ "") :
    (resolveIdentity none svc).acts
        = [RAct.createRequest, RAct.storageWrite (toString n), RAct.expose (JsNum.num n)] ∧
    (resolveIdentity none svc).acts.count RAct.createRequest = 1 ∧
    (resolveIdentity none svc).storage = some (toString n) ∧
    (resolveIdentity none svc).convId = some (JsNum.num n) ∧
    historyRequest base (resolveIdentity none svc).convId
        = some (historyUrl base (JsNum.num n)) ∧
    connTarget base (resolveIdentity none svc).convId
        = some (wsUrl base (JsNum.num n)) ∧
    (resolveIdentity (some s) svc).acts.count RAct.createRequest = 0 := by
  subst hok
  refine ⟨rfl, ?_, rfl, rfl, rfl, rfl, ?_⟩
  · simp [resolveIdentity, strTruthy, List.count_cons]
  · simp [resolveIdentity, strTruthy, hs, List.count_cons]

theorem c1_identity_resolution_witness :
    (resolveIdentity none (Except.ok 7)).acts
        = [RAct.createRequest, RAct.storageWrite "7", RAct.expose (JsNum.num 7)] ∧
    (resolveIdentity (some "5") (Except.ok 7)).acts.count RAct.createRequest = 0 := by
  have h := c1_identity_resolution "http://127.0.0.1:8000" (Except.ok 7) 7 "5" rfl (by decide)
  exact ⟨by rw [h.1]; decide, h.2.2.2.2.2.2⟩

/-- C2 counterexample: dispatching the whitespace-only text `"   "` while the
connection is Open appends no message and transmits no frame, so the claim's
"for every input text ... appends exactly one ... transmits exactly one"
fails at this input. -/
theorem c2_counterexample :
    ¬ ((sendMessage (some wsOPEN) "   " []).messages.length = 1 ∧
       (sendMessage (some wsOPEN) "   " []).sent.length = 1) := by decide

/-- C2 (amended): for every input text whose whitespace-trimmed form is
non-empty, dispatching while Open appends exactly one user message with the
trimmed content and no id, transmits exactly one frame with the trimmed
text, and clears the input buffer; and for every input and connection state
the append happens iff the transmit happens in the same operation. -/
theorem c2_dispatch_open_appends_and_sends (inp : String) (msgs : List Message)
    (h : jsTrim inp ≠ "") :
    (sendMessage (some wsOPEN) inp msgs).messages
        = msgs ++ [⟨none, Sender.user, jsTrim inp⟩] ∧
    (sendMessage (some wsOPEN) inp msgs).sent = [jsTrim inp] ∧
    (sendMessage (some wsOPEN) inp msgs).input = "" ∧
    (∀ (sock : Option Nat) (inp' : String) (msgs' : List Message),
      (sendMessage sock inp' msgs').messages ≠ msgs' ↔
        (sendMessage sock inp' msgs').sent ≠ []) := by
  refine ⟨by simp [sendMessage, socketNotOpen, wsOPEN, h],
    by simp [sendMessage, socketNotOpen, wsOPEN, h],
    by simp [sendMessage, socketNotOpen, wsOPEN, h], ?_⟩
  intro sock inp' msgs'
  cases hs : socketNotOpen sock with
  | true => simp [sendMessage, hs]
  | false =>
    by_cases ht : jsTrim inp' = ""
    · simp [sendMessage, hs, ht]
    · simp [sendMessage, hs, ht]

theorem c2_dispatch_open_witness :
    jsTrim "  hello  " ≠ "" ∧
    (sendMessage (some wsOPEN) "  hello  " []).messages
        = [⟨none, Sender.user, "hello"⟩] ∧
    (sendMessage (some wsOPEN) "  hello  " []).sent = ["hello"] ∧
    (sendMessage (some wsOPEN) "  hello  " []).input = "" := by
  have h := c2_dispatch_open_appends_and_sends "  hello  " [] (by decide)
  exact ⟨by decide, by rw [h.1]; decide, by rw [h.2.1]; decide, h.2.2.1⟩

/-- C3: for any sequence of inbound frames arriving in order on an Open
connection, the Message Log gains exactly the corresponding bot messages in
the same order, each with the raw frame payload as content and no id. -/
theorem c3_inbound_frames_in_order (frames : List String) (msgs : List Message) :
    deliverFrames frames msgs = msgs ++ frames.map (fun f => ⟨none, Sender.bot, f⟩) := by
  induction frames generalizing msgs with
  | nil => simp [deliverFrames]
  | cons f fs ih =>
    have h1 : deliverFrames (f :: fs) msgs = deliverFrames fs (onmessage f msgs) := rfl
    rw [h1, ih]
    simp [onmessage]

/-- C4: dispatching any text while the connection is not Open changes
nothing — no message appended, no frame sent, input buffer untouched — and
surfaces the NotConnected alert. -/
theorem c4_dispatch_not_open (sock : Option Nat) (inp : String) (msgs : List Message)
    (h : socketNotOpen sock = true) :
    sendMessage sock inp msgs = ⟨msgs, inp, [], true⟩ := by
  simp [sendMessage, h]

theorem c4_dispatch_not_open_witness :
    sendMessage (some wsCLOSED) "hi" [] = ⟨[], "hi", [], true⟩ :=
  c4_dispatch_not_open (some wsCLOSED) "hi" [] (by decide)

/-- C5: dispatching a text whose trimmed form is empty while Open is a
no-op — nothing appended, nothing transmitted, no alert; and consequently
no transmitted frame and no locally appended user message ever has empty
content. -/
theorem c5_dispatch_blank_noop (inp : String) (msgs : List Message)
    (h : jsTrim inp = "") :
    sendMessage (some wsOPEN) inp msgs = ⟨msgs, inp, [], false⟩ ∧
    (∀ (sock : Option Nat) (inp' : String) (msgs' : List Message),
      ∀ t ∈ (sendMessage sock inp' msgs').sent, t ≠ "") ∧
    (∀ (sock : Option Nat) (inp' : String) (msgs' : List Message),
      ∀ m ∈ (sendMessage sock inp' msgs').messages, m ∈ msgs' ∨ m.content ≠ "") := by
  refine ⟨by simp [sendMessage, socketNotOpen, wsOPEN, h], ?_, ?_⟩
  · intro sock inp' msgs' t ht
    cases hs : socketNotOpen sock with
    | true => simp [sendMessage, hs] at ht
    | false =>
      by_cases he : jsTrim inp' = ""
      · simp [sendMessage, hs, he] at ht
      · simp [sendMessage, hs, he] at ht
        subst ht
        exact he
  · intro sock inp' msgs' m hm
    cases hs : socketNotOpen sock with
    | true => exact Or.inl (by simpa [sendMessage, hs] using hm)
    | false =>
      by_cases he : jsTrim inp' = ""
      · exact Or.inl (by simpa [sendMessage, hs, he] using hm)
      · simp [sendMessage, hs, he] at hm
        rcases hm with hm | hm
        · exact Or.inl hm
        · subst hm
          exact Or.inr he

theorem c5_dispatch_blank_witness :
    sendMessage (some wsOPEN) "   " [] = ⟨[], "   ", [], false⟩ :=
  (c5_dispatch_blank_noop "   " [] (by decide)).1

/-- C6: a successful history load replaces the entire Message Log with the
fetched sequence in server order, independently of the prior log, keeping
each record's id and content and normalizing every sender other than the
literal "user" token to bot. -/
theorem c6_history_load_replaces_log (base : String) (c : JsNum)
    (recs : List ServerRecord) (prior : List Message) :
    (historyEffect base (some c) (Except.ok recs) prior).1 = recs.map normalizeRecord ∧
    (∀ r : ServerRecord,
      normalizeRecord r
        = ⟨some r.id, if r.sender = "user" then Sender.user else Sender.bot, r.content⟩) ∧
    (∀ other : List Message,
      (historyEffect base (some c) (Except.ok recs) other).1
        = (historyEffect base (some c) (Except.ok recs) prior).1) :=
  ⟨rfl, fun _ => rfl, fun _ => rfl⟩

/-- C7: on a failed history fetch the Message Log is left exactly as it was,
the error is reported to the observability sink, and only the single
original fetch was issued (no retry). -/
theorem c7_history_fetch_failure_atomic (base : String) (c : JsNum) (prior : List Message) :
    historyEffect base (some c) (Except.error ()) prior
        = (prior, [HistAction.fetchReq (historyUrl base c), HistAction.logFetchError]) ∧
    ((historyEffect base (some c) (Except.error ()) prior).2.countP
        (fun a => match a with | HistAction.fetchReq _ => true | _ => false)) = 1 :=
  ⟨rfl, rfl⟩

/-- C8: whenever the bound identifier changes or the view is dismissed, the
existing connection is closed before any new one opens (every close action
of a step precedes every open action of that step); at no instant — after
any prefix of the action trace of any run — is more than one connection
live; the socket error and close callbacks open nothing (no reconnect); and
an open action occurs only on an identifier change to a present identifier,
bound to that identifier. -/
theorem c8_connection_lifecycle (es : List WsEvent) (s : WsState) (e : WsEvent)
    (pre suf : List ConnAct) (hsplit : (wsRun wsInit es).2 = pre ++ suf) :
    (liveAfter pre).length ≤ 1 ∧
    (∀ (i j t tok : Nat) (c : JsNum), (wsStep s e).2[i]? = some (ConnAct.closeConn t) →
        (wsStep s e).2[j]? = some (ConnAct.openConn tok c) → i < j) ∧
    (wsStep s WsEvent.sockError).2 = [] ∧
    (wsStep s WsEvent.sockClose).2 = [] ∧
    (∀ tok c, ConnAct.openConn tok c ∈ (wsStep s e).2 → e = WsEvent.setId (some c)) := by
  refine ⟨wsRun_live_bound es wsInit [] wsInv_init pre suf hsplit, ?_, rfl, rfl, ?_⟩
  · intro i j t tok c hi hj
    cases e with
    | setId cid =>
      cases cid with
      | none =>
        refine close_before_open_split (closeActs s) [] (closeActs_all_close s)
          (by simp) i j t tok c ?_ ?_
        · simpa [wsStep] using hi
        · simpa [wsStep] using hj
      | some c' =>
        exact close_before_open_split (closeActs s) [ConnAct.openConn s.fresh c']
          (closeActs_all_close s) (by simp) i j t tok c
          (by simpa [wsStep] using hi) (by simpa [wsStep] using hj)
    | unmount =>
      refine close_before_open_split (closeActs s) [] (closeActs_all_close s)
        (by simp) i j t tok c ?_ ?_
      · simpa [wsStep] using hi
      · simpa [wsStep] using hj
    | sockError => simp [wsStep] at hi
    | sockClose => simp [wsStep] at hi
  · intro tok c hmem
    cases e with
    | setId cid =>
      cases cid with
      | none =>
        have hmem' : ConnAct.openConn tok c ∈ closeActs s := by simpa [wsStep] using hmem
        obtain ⟨t, habs⟩ := closeActs_all_close s _ hmem'
        exact absurd habs (by simp)
      | some c' =>
        have hmem' : ConnAct.openConn tok c ∈ closeActs s ++ [ConnAct.openConn s.fresh c'] := by
          simpa [wsStep] using hmem
        rcases List.mem_append.mp hmem' with hcl | hop
        · obtain ⟨t, habs⟩ := closeActs_all_close s _ hcl
          exact absurd habs (by simp)
        · have heq := List.mem_singleton.mp hop
          injection heq with h1 h2
          subst h2
          rfl
    | unmount =>
      have hmem' : ConnAct.openConn tok c ∈ closeActs s := by simpa [wsStep] using hmem
      obtain ⟨t, habs⟩ := closeActs_all_close s _ hmem'
      exact absurd habs (by simp)
    | sockError => simp [wsStep] at hmem
    | sockClose => simp [wsStep] at hmem

theorem c8_connection_lifecycle_witness :
    (wsRun wsInit [WsEvent.setId (some (JsNum.num 5)), WsEvent.setId (some (JsNum.num 6))]).2
        = [ConnAct.openConn 0 (JsNum.num 5), ConnAct.closeConn 0]
          ++ [ConnAct.openConn 1 (JsNum.num 6)] ∧
    (liveAfter [ConnAct.openConn 0 (JsNum.num 5), ConnAct.closeConn 0]).length ≤ 1 := by
  refine ⟨by decide, ?_⟩
  exact (c8_connection_lifecycle
    [WsEvent.setId (some (JsNum.num 5)), WsEvent.setId (some (JsNum.num 6))]
    wsInit (WsEvent.setId (some (JsNum.num 5)))
    [ConnAct.openConn 0 (JsNum.num 5), ConnAct.closeConn 0]
    [ConnAct.openConn 1 (JsNum.num 6)] (by decide)).1

/-- C9: every post-history operation on the Message Log — inbound-frame
handling and outbound dispatch — only appends: the prior log is left intact
as a prefix of the result in both cases. -/
theorem c9_log_append_only (f : String) (sock : Option Nat) (inp : String)
    (msgs : List Message) :
    (∃ tl, onmessage f msgs = msgs ++ tl) ∧
    (∃ tl, (sendMessage sock inp msgs).messages = msgs ++ tl) := by
  refine ⟨⟨[⟨none, Sender.bot, f⟩], rfl⟩, ?_⟩
  cases hs : socketNotOpen sock with
  | true => exact ⟨[], by simp [sendMessage, hs]⟩
  | false =>
    by_cases ht : jsTrim inp = ""
    · exact ⟨[], by simp [sendMessage, hs, ht]⟩
    · exact ⟨[⟨none, Sender.user, jsTrim inp⟩], by simp [sendMessage, hs, ht]⟩

/-- C10: any non-empty cached storage value suppresses the creation request
and is resolved through parseInt(value, 10) with no validation; a
non-numeric cached string such as "abc" therefore resolves to the NaN
identifier rather than triggering creation of a new conversation. -/
theorem c10_cached_value_used_unvalidated (s : String) (svc : Except Unit Int)
    (h : s ≠ "") :
    (resolveIdentity (some s) svc).acts.count RAct.createRequest = 0 ∧
    (resolveIdentity (some s) svc).convId = some (parseInt10 s) ∧
    parseInt10 "abc" = JsNum.nan := by
  refine ⟨?_, ?_, by decide⟩
  · simp [resolveIdentity, strTruthy, h, List.count_cons]
  · simp [resolveIdentity, strTruthy, h]

theorem c10_cached_value_used_unvalidated_witness :
    (resolveIdentity (some "abc") (Except.ok 7)).acts.count RAct.createRequest = 0 ∧
    (resolveIdentity (some "abc") (Except.ok 7)).convId = some JsNum.nan := by
  have h := c10_cached_value_used_unvalidated "abc" (Except.ok 7) (by decide)
  exact ⟨h.1, by rw [h.2.1]; decide⟩
